import Mathlib

/-!
Verification of the TLDV video downloader (src/tldv_downloader.py).

The Python source is shallowly embedded: pure string helpers become Lean
functions on `String` / `List Char`; functions that raise `ValueError` /
`RuntimeError` become `Except String _`; the orchestration functions take an
explicit environment record describing the results of external effects
(filesystem, HTTP, subprocesses) and return their result together with the
list of write effects they perform.
-/

namespace TLDV

/-- Whitespace characters removed by Python `str.strip()` (ASCII range:
space, tab, newline, carriage return, vertical tab, form feed). -/
def isPySpace (c : Char) : Bool :=
  c = ' ' || c = '\t' || c = '\n' || c = '\r' || c = '\x0b' || c = '\x0c'

/-- Strip characters satisfying `p` from both ends of a list, as Python's
`str.strip(chars)` does. -/
def stripWhile (p : Char → Bool) (l : List Char) : List Char :=
  (l.dropWhile p).rdropWhile p

/-- Python `str.strip()` on a string. -/
def pyStrip (s : String) : String := String.mk (stripWhile isPySpace s.toList)

/-- Python `s.startswith(p)`. -/
def strStartsWith (s p : String) : Bool := p.toList.isPrefixOf s.toList

/-- The characters the sanitizer replaces: `< > : " / \ | ? *`
(the regex class in `sanitize_filename`, line 29 of the source). -/
def invalidFileChars : List Char := ['<', '>', ':', '\x22', '/', '\\', '|', '?', '*']

/-- Helper for `collapseUnderscores`: the flag records whether the previous
character (already emitted) was an underscore, so any further underscore of
the same run is dropped. -/
def collapseUS : Bool → List Char → List Char
  | _, [] => []
  | prevUS, c :: rest =>
    if c = '_' then
      if prevUS then collapseUS true rest
      else '_' :: collapseUS true rest
    else c :: collapseUS false rest

/-- `re.sub(r'_{2,}', '_', s)`: collapse every maximal run of underscores
to a single underscore (runs of length 1 are unchanged, so this is the
same as replacing each run of 2+ by one underscore). -/
def collapseUnderscores (l : List Char) : List Char := collapseUS false l

/-- The first three steps of `sanitize_filename`: replace invalid characters
by `_`, collapse `_{2,}`, then `strip('_ ')`. -/
def sanitizeStripped (name : String) : List Char :=
  stripWhile (fun c => c = '_' || c = ' ')
    (collapseUnderscores (name.toList.map (fun c => if c ∈ invalidFileChars then '_' else c)))

/-- `TLDVDownloader.sanitize_filename` (source lines 26-37):
replace invalid characters by `_`, collapse `_{2,}`, `strip('_ ')`,
truncate to 100 characters, and fall back to `"TLDV_Meeting"` when empty. -/
def sanitize_filename (name : String) : String :=
  let s3 := sanitizeStripped name
  let s4 := if s3.length > 100 then s3.take 100 else s3
  if s4 = [] then "TLDV_Meeting" else String.mk s4

/-- Python `str.rstrip('/')`: remove every trailing slash. -/
def rstripSlashes (l : List Char) : List Char := l.rdropWhile (fun c => c = '/')

/-- Python `str.split('/')`: split on each slash, keeping empty pieces;
the result is never the empty list (the empty string splits to `[""]`). -/
def splitOnSlash : List Char → List (List Char)
  | [] => [[]]
  | c :: rest =>
    if c = '/' then [] :: splitOnSlash rest
    else
      match splitOnSlash rest with
      | [] => [[c]]
      | h :: t => (c :: h) :: t

/-- `TLDVDownloader.extract_meeting_id` (source lines 39-49):
strip whitespace, strip trailing slashes, split on `/`, take the last
segment (Python `split` always yields at least one segment, so the
`[-1]` indexing never fails and `getLastD` coincides with it), and
require length at least 10, else `ValueError`. -/
def extract_meeting_id (url : String) : Except String String :=
  let u := rstripSlashes (stripWhile isPySpace url.toList)
  let meeting_id := String.mk ((splitOnSlash u).getLastD [])
  if meeting_id.length < 10 then
    .error ("Could not extract meeting ID from URL: " ++ String.mk u)
  else
    .ok meeting_id

/-- The last path segment of a URL after stripping surrounding whitespace
and trailing slashes — the quantity the spec says `extract_meeting_id`
returns. -/
def lastSegment (url : String) : String :=
  String.mk ((splitOnSlash (rstripSlashes (stripWhile isPySpace url.toList))).getLastD [])

/-- A 101-character title: 99 `a`s followed by `_b`. After sanitization the
stripped form is 101 characters long, so truncation to 100 characters cuts
off the final `b` and leaves a trailing underscore. -/
def c3BadInput : String := String.mk (List.replicate 99 'a' ++ ['_', 'b'])

/-- `TLDVDownloader.prepare_auth_token` (source lines 51-56):
strip whitespace; prepend `"Bearer "` unless the stripped token already
starts with `"Bearer "` or `"bearer "`. -/
def prepare_auth_token (token : String) : String :=
  let t := pyStrip token
  if strStartsWith t "Bearer " || strStartsWith t "bearer " then t
  else "Bearer " ++ t

/-- The fields of a Python `datetime` value, as produced by
`datetime.strptime(s, "%Y-%m-%dT%H:%M:%S.%fZ")` or `datetime.now()`. -/
structure PyDateTime where
  year : Nat
  month : Nat
  day : Nat
  hour : Nat
  minute : Nat
  second : Nat
  micro : Nat

/-- The decimal digit character for `n % 10`. -/
def digitChar (n : Nat) : Char := Char.ofNat (48 + n % 10)

/-- Two-digit zero-padded decimal (the strftime `%m/%d/%H/%M/%S` fields;
Python datetimes guarantee the value fits). -/
def pad2 (n : Nat) : List Char := [digitChar (n / 10), digitChar n]

/-- Three-digit zero-padded decimal (used to build millisecond fractions). -/
def pad3 (n : Nat) : List Char := [digitChar (n / 100), digitChar (n / 10), digitChar n]

/-- Four-digit zero-padded decimal (the strftime `%Y` field; Python datetime
years are at most 9999). -/
def pad4 (n : Nat) : List Char := [digitChar (n / 1000), digitChar (n / 100), digitChar (n / 10), digitChar n]

/-- `strftime("%Y-%m-%d_%H-%M-%S")` (source line 103). -/
def strftimeTS (d : PyDateTime) : String :=
  String.mk (pad4 d.year ++ '-' :: pad2 d.month ++ '-' :: pad2 d.day ++
    '_' :: pad2 d.hour ++ '-' :: pad2 d.minute ++ '-' :: pad2 d.second)

/-- The numeric value of a list of decimal digit characters (most
significant first), as `int()` computes it inside strptime. -/
def digitsVal (l : List Char) : Nat := l.foldl (fun a c => a * 10 + (c.toNat - 48)) 0

/-- `calendar`-style month length with leap years, as validated by the
`datetime` constructor. -/
def daysInMonth (y m : Nat) : Nat :=
  if m == 2 then (if y % 4 == 0 && (y % 100 != 0 || y % 400 == 0) then 29 else 28)
  else if m == 4 || m == 6 || m == 9 || m == 11 then 30 else 31

/-- A numeric strptime field of one or two digits whose value must lie in
`[lo, hi]`: exactly the strings matched by the `%m/%d/%H/%M/%S` regex
alternations of CPython's `_strptime` (e.g. `1[0-2]|0[1-9]|[1-9]` for `%m`
is the same as: 1-2 digits with value in `[1, 12]`). Takes the maximal
digit run, which is equivalent to the backtracking regex here because every
following literal is a non-digit. -/
def parseNum2 (lo hi : Nat) (l : List Char) : Option (Nat × List Char) :=
  let ds := l.takeWhile Char.isDigit
  let rest := l.dropWhile Char.isDigit
  if ds.length == 0 || 2 < ds.length then none
  else if lo ≤ digitsVal ds && digitsVal ds ≤ hi then some (digitsVal ds, rest) else none

/-- The `%Y` strptime field: exactly four digits (`\d\d\d\d`). -/
def parseNum4 (l : List Char) : Option (Nat × List Char) :=
  let ds := l.takeWhile Char.isDigit
  let rest := l.dropWhile Char.isDigit
  if ds.length == 4 then some (digitsVal ds, rest) else none

/-- The `%f` strptime field: one to six digits, right-padded with zeros to
microseconds. -/
def parseFrac (l : List Char) : Option (Nat × List Char) :=
  let ds := l.takeWhile Char.isDigit
  let rest := l.dropWhile Char.isDigit
  if ds.length == 0 || 6 < ds.length then none
  else some (digitsVal ds * 10 ^ (6 - ds.length), rest)

/-- A literal character of the format string. -/
def parseLit (a : Char) : List Char → Option (List Char)
  | [] => none
  | c :: rest => if c = a then some rest else none

/-- A literal letter of the format string; CPython compiles the strptime
regex with `re.IGNORECASE`, so both cases are accepted. -/
def parseLitCI (a b : Char) : List Char → Option (List Char)
  | [] => none
  | c :: rest => if c = a || c = b then some rest else none

/-- `datetime.strptime(created_at, "%Y-%m-%dT%H:%M:%S.%fZ")` (source line
97): `none` models the `ValueError` that the caller catches. The final
condition models strptime's "unconverted data remains" check plus the
`datetime` constructor validation (year at least 1, day within the month,
second at most 59 — the regex alternation for `%S` admits 60 and 61 but the
constructor then rejects them). -/
def parseCreatedAt (s : String) : Option PyDateTime :=
  match parseNum4 s.toList with
  | none => none
  | some (y, r1) =>
  match parseLit '-' r1 with
  | none => none
  | some r2 =>
  match parseNum2 1 12 r2 with
  | none => none
  | some (mo, r3) =>
  match parseLit '-' r3 with
  | none => none
  | some r4 =>
  match parseNum2 1 31 r4 with
  | none => none
  | some (d, r5) =>
  match parseLitCI 'T' 't' r5 with
  | none => none
  | some r6 =>
  match parseNum2 0 23 r6 with
  | none => none
  | some (h, r7) =>
  match parseLit ':' r7 with
  | none => none
  | some r8 =>
  match parseNum2 0 59 r8 with
  | none => none
  | some (mi, r9) =>
  match parseLit ':' r9 with
  | none => none
  | some r10 =>
  match parseNum2 0 61 r10 with
  | none => none
  | some (sec, r11) =>
  match parseLit '.' r11 with
  | none => none
  | some r12 =>
  match parseFrac r12 with
  | none => none
  | some (us, r13) =>
  match parseLitCI 'Z' 'z' r13 with
  | none => none
  | some r14 =>
  if r14 = [] ∧ 1 ≤ y ∧ d ≤ daysInMonth y mo ∧ sec ≤ 59 then
    some ⟨y, mo, d, h, mi, sec, us⟩
  else none

/-- Tail of an ISO `Z` string from the fraction on. -/
def isoTail7 (ms : Nat) : List Char := pad3 ms ++ ['Z']

/-- Tail of an ISO `Z` string from the seconds on. -/
def isoTail6 (sec ms : Nat) : List Char := pad2 sec ++ '.' :: isoTail7 ms

/-- Tail of an ISO `Z` string from the minutes on. -/
def isoTail5 (mi sec ms : Nat) : List Char := pad2 mi ++ ':' :: isoTail6 sec ms

/-- Tail of an ISO `Z` string from the hours on. -/
def isoTail4 (h mi sec ms : Nat) : List Char := pad2 h ++ ':' :: isoTail5 mi sec ms

/-- Tail of an ISO `Z` string from the day on. -/
def isoTail3 (d h mi sec ms : Nat) : List Char := pad2 d ++ 'T' :: isoTail4 h mi sec ms

/-- Tail of an ISO `Z` string from the month on. -/
def isoTail2 (mo d h mi sec ms : Nat) : List Char := pad2 mo ++ '-' :: isoTail3 d h mi sec ms

/-- An ISO-8601 date-time string with a three-digit fraction and literal
`Z`, built from its components — the shape of `meeting.createdAt` values
the spec describes (e.g. `"2024-03-15T10:30:00.000Z"`). -/
def isoZString (y mo d h mi sec ms : Nat) : String :=
  String.mk (pad4 y ++ '-' :: isoTail2 mo d h mi sec ms)

/-- The relevant fields of the JSON API response: `meeting.name`,
`meeting.createdAt` and `video.source`, each `none` when the key is absent
(`dict.get` returns `None`). -/
structure MeetingData where
  name : Option String
  createdAt : Option String
  source : Option String

/-- The record `parse_meeting_info` returns (source lines 106-111). -/
structure MeetingInfo where
  name : String
  timestamp : String
  source_url : String
  full_data : MeetingData

/-- `TLDVDownloader.parse_meeting_info` (source lines 82-111). `now` is the
value `datetime.now()` would produce, passed explicitly. The `ValueError`
raised when `video.source` is absent or empty becomes `.error`; a missing
or unparseable `createdAt` falls back to `now` (Python's `if created_at:`
treats the empty string as absent, and a `strptime` failure is caught). -/
def parse_meeting_info (now : PyDateTime) (data : MeetingData) : Except String MeetingInfo :=
  match data.source with
  | none => .error "Video source URL not found in meeting data"
  | some src =>
    if src = "" then .error "Video source URL not found in meeting data"
    else
      let date_obj :=
        match data.createdAt with
        | some c => if c = "" then now else (parseCreatedAt c).getD now
        | none => now
      .ok { name := sanitize_filename (data.name.getD "TLDV_Meeting"),
            timestamp := strftimeTS date_obj,
            source_url := src,
            full_data := data }

/-- A fixed substitute for `datetime.now()` used by witnesses. -/
def nowW : PyDateTime := ⟨2000, 1, 1, 0, 0, 0, 0⟩

/-- A concrete well-formed API response used by witnesses. -/
def dataW : MeetingData :=
  ⟨some "Weekly Sync", some "2024-03-15T10:30:00.000Z", some "https://cdn.example/video.m3u8"⟩

/-- A concrete API response with `video.source` absent, used by witnesses. -/
def dataNoSrc : MeetingData := ⟨some "Weekly Sync", some "2024-03-15T10:30:00.000Z", none⟩

/-- The outcome of probing one external executable with `--version`
(source lines 122-135): the process ran and exited with a code, or the
attempt raised one of the three caught exception kinds. -/
inductive ProbeResult where
  | exit (code : Nat)
  | timeoutExpired
  | fileNotFound
  | subprocessError

/-- The probe counts as available only when the process ran and returned
exit code 0 (source line 129). -/
def probeOk : ProbeResult → Bool
  | .exit 0 => true
  | _ => false

/-- One entry of the `downloaders` table (source lines 115-118). -/
structure Downloader where
  name : String
  cmd : String
  preferred : Bool

/-- The fixed candidate table, primary tool first (source lines 115-118). -/
def downloaders : List Downloader :=
  [⟨"N_m3u8DL-RE", "N_m3u8DL-RE", true⟩, ⟨"ffmpeg", "ffmpeg", false⟩]

/-- `TLDVDownloader.check_downloader_availability` (source lines 113-142):
keep the candidates whose probe succeeded, in table order; raise
`RuntimeError` when none did; otherwise return the first preferred
available tool, defaulting to the first available one. `probe` gives each
command's probe outcome. -/
def check_downloader_availability (probe : String → ProbeResult) : Except String Downloader :=
  let available := downloaders.filter (fun d => probeOk (probe d.cmd))
  match available with
  | [] => .error "Neither N_m3u8DL-RE nor ffmpeg is available. Please install one of them."
  | first :: _ => .ok ((available.find? (fun d => d.preferred)).getD first)

/-- Result of `subprocess.run` on the download command with the 1-hour
timeout (source lines 178-203): an exit code, `TimeoutExpired`, or another
exception. -/
inductive RunResult where
  | exit (code : Nat)
  | timeoutExpired
  | raised (msg : String)

/-- `TLDVDownloader._run_download_command` (source lines 171-203): reports
success only when the process exits 0 AND the output file exists afterward;
a nonzero exit, a timeout, or an exception is failure. -/
def run_download_command (run : RunResult) (fileExists : Bool) : Bool :=
  match run with
  | .exit 0 => fileExists
  | .exit _ => false
  | .timeoutExpired => false
  | .raised _ => false

/-- Filesystem / process effects `download_video` can perform, in order. -/
inductive Effect where
  | mkdirO (dir : String)
  | writeJson (path : String)
  | invokeTool (tool : String) (outFile : String)

/-- The environment of one `download_video` call: the outcome of every
external interaction it may perform. -/
structure DVEnv where
  /-- whether `output_path.mkdir(parents=True, exist_ok=True)` succeeds -/
  mkdirOk : Bool
  /-- `fetch_meeting_data meeting_id token`: `.error` models the
  `ValueError`s it raises (Unauthorized / NotFound / ApiError / NetworkError) -/
  fetch : String → String → Except String MeetingData
  /-- the `datetime.now()` fallback used by `parse_meeting_info` -/
  now : PyDateTime
  /-- probe outcome per external command -/
  probe : String → ProbeResult
  /-- the external downloader process run -/
  run : RunResult
  /-- the output file exists after the process exits 0 -/
  fileExists : Bool
  /-- the json metadata sidecar write succeeds (its failure is swallowed) -/
  metadataOk : Bool

/-- `TLDVDownloader.download_video` (source lines 287-343), external
interactions read from `env`. Returns the Python return value — `some path`
on success, `none` otherwise; every `ValueError`/`Exception` raised inside
is caught by the outer handlers, so the function is total — together with
the ordered list of write effects performed. `Path.cwd()` is modelled as
`"."`. -/
def download_video (env : DVEnv) (url auth_token : String) (output_dir : Option String) :
    Option String × List Effect :=
  let dir := match output_dir with | some d => d | none => "."
  let eff0 := match output_dir with | some d => [Effect.mkdirO d] | none => []
  if output_dir.isSome && !env.mkdirOk then (none, [])
  else
    match extract_meeting_id url with
    | .error _ => (none, eff0)
    | .ok meeting_id =>
      match env.fetch meeting_id (prepare_auth_token auth_token) with
      | .error _ => (none, eff0)
      | .ok data =>
        match parse_meeting_info env.now data with
        | .error _ => (none, eff0)
        | .ok info =>
          let output_file := dir ++ "/" ++ info.timestamp ++ "_" ++ info.name ++ ".mp4"
          match check_downloader_availability env.probe with
          | .error _ => (none, eff0)
          | .ok dl =>
            let metadata_name := dir ++ "/" ++ info.timestamp ++ "_" ++ info.name
            let eff1 := eff0 ++
              (if env.metadataOk then [Effect.writeJson (metadata_name ++ ".json")] else [])
            let eff2 := eff1 ++ [Effect.invokeTool dl.name output_file]
            (if run_download_command env.run env.fileExists then some output_file else none,
             eff2)

/-- Whether every orchestration step of `download_video` before the
external invocation succeeds. -/
def dvReachesRun (env : DVEnv) (url auth_token : String) (output_dir : Option String) : Bool :=
  !(output_dir.isSome && !env.mkdirOk) &&
  (match extract_meeting_id url with
   | .error _ => false
   | .ok meeting_id =>
     match env.fetch meeting_id (prepare_auth_token auth_token) with
     | .error _ => false
     | .ok data =>
       match parse_meeting_info env.now data with
       | .error _ => false
       | .ok _ =>
         match check_downloader_availability env.probe with
         | .error _ => false
         | .ok _ => true)

/-- The output file path `download_video` computes for a call, when the
parsing steps succeed. -/
def dvOutputFile (env : DVEnv) (url auth_token : String) (output_dir : Option String) :
    Option String :=
  match extract_meeting_id url with
  | .error _ => none
  | .ok meeting_id =>
    match env.fetch meeting_id (prepare_auth_token auth_token) with
    | .error _ => none
    | .ok data =>
      match parse_meeting_info env.now data with
      | .error _ => none
      | .ok info =>
        some ((match output_dir with | some d => d | none => ".") ++ "/" ++
          info.timestamp ++ "_" ++ info.name ++ ".mp4")

/-- Per-item result of `download_video` as seen by the batch wrapper: a
normal return, or a raised exception (the wrapper catches every exception
and turns it into a failure outcome for that item alone). -/
inductive DVResult where
  | ret (r : Option String)
  | raised (msg : String)

/-- A batch outcome dict `{'success': ..., 'url': ..., 'file'/'error': ...}`
(source lines 243-247). -/
structure DownloadOutcome where
  success : Bool
  url : String
  file : Option String
  error : Option String

/-- The `download_single` closure (source lines 235-247): wraps one
`download_video` call, mapping `some f` to a success outcome, `none` to a
generic failure outcome, and a raised exception to a failure outcome
carrying its message. -/
def download_single (dv : String × String → DVResult) (item : String × String) :
    DownloadOutcome :=
  match dv item with
  | .ret (some f) => ⟨true, item.1, some f, none⟩
  | .ret none => ⟨false, item.1, none, some "Download failed"⟩
  | .raised msg => ⟨false, item.1, none, some msg⟩

/-- What one `download_multiple_videos` call returns and does. Outcomes are
listed in submission order; the thread pool collects them in completion
order, but every property stated about them here is order-insensitive. -/
structure BatchRun where
  /-- the Python return value; `none` models Python's `None` -/
  retval : Option (List DownloadOutcome)
  /-- the outcomes collected into `successful_downloads`/`failed_downloads` -/
  outcomes : List DownloadOutcome
  /-- the output directory was resolved (and created when one was named) -/
  dirSetup : Bool
  /-- a `ThreadPoolExecutor` was started -/
  poolStarted : Bool

/-- `TLDVDownloader.download_multiple_videos` (source lines 215-285): an
empty list returns `[]` immediately, before any directory or pool work; a
non-empty list resolves the output directory, runs every item through
`download_single` on the worker pool and collects one outcome per item —
and then falls off the end of the function, so its return value is Python's
`None`, never the outcome list. `output_dir` and `max_workers` only affect
where files go and the pool width, not the outcomes. -/
def download_multiple_videos (dv : String × String → DVResult)
    (video_data_list : List (String × String)) (output_dir : Option String)
    (max_workers : Nat) : BatchRun :=
  if video_data_list.isEmpty then ⟨some [], [], false, false⟩
  else ⟨none, video_data_list.map (download_single dv), true, true⟩

/-- A per-item behavior where every download succeeds. -/
def dvAllOk : String × String → DVResult := fun item => .ret (some (item.1 ++ ".mp4"))

/-- A per-item behavior where the item with url `"u3"` raises and every
other item succeeds — the spec's 5-item scenario. -/
def dvMixed : String × String → DVResult := fun item =>
  if item.1 = "u3" then .raised "boom" else .ret (some (item.1 ++ ".mp4"))

/-- A probe environment where both tools are present and working. -/
def probeBothOk : String → ProbeResult := fun _ => .exit 0

/-- A probe environment where no tool is present. -/
def probeNeither : String → ProbeResult := fun _ => .fileNotFound

/-- A probe environment where only ffmpeg is present. -/
def probeOnlyFF : String → ProbeResult :=
  fun c => if c = "ffmpeg" then .exit 0 else .fileNotFound

/-- A download environment in which everything works except that neither
external downloader tool is installed. -/
def envNoTools : DVEnv :=
  ⟨true, fun _ _ => .ok dataW, nowW, probeNeither, .exit 0, true, true⟩

/-! ### Lemmas about the string helpers -/

theorem mem_collapseUS {c : Char} : ∀ (b : Bool) (l : List Char), c ∈ collapseUS b l → c ∈ l := by
  intro b l
  induction l generalizing b with
  | nil => simp [collapseUS]
  | cons a rest ih =>
    simp only [collapseUS]
    by_cases ha : a = '_' <;> simp only [ha, if_true, if_false, reduceIte]
    · cases b with
      | true => intro h; exact List.mem_cons_of_mem _ (ih _ h)
      | false =>
        intro h
        rcases List.mem_cons.mp h with h | h
        · simp [h]
        · exact List.mem_cons_of_mem _ (ih _ h)
    · intro h
      rcases List.mem_cons.mp h with h | h
      · simp [h]
      · exact List.mem_cons_of_mem _ (ih _ h)

theorem collapseUS_true_head : ∀ l : List Char, (collapseUS true l).head? ≠ some '_' := by
  intro l
  induction l with
  | nil => simp [collapseUS]
  | cons a rest ih =>
    simp only [collapseUS]
    by_cases ha : a = '_' <;> simp only [ha, if_true, reduceIte]
    · exact ih
    · simp [ha]

/-- The binary relation whose `Chain'` closure says a character list has no
two adjacent underscores. -/
def noDU (a b : Char) : Prop := ¬(a = '_' ∧ b = '_')

instance : DecidableRel noDU := fun a b => by unfold noDU; infer_instance

theorem chain'_collapseUS : ∀ (b : Bool) (l : List Char), List.Chain' noDU (collapseUS b l) := by
  intro b l
  induction l generalizing b with
  | nil => simp [collapseUS]
  | cons a rest ih =>
    simp only [collapseUS]
    by_cases ha : a = '_' <;> simp only [ha, if_true, reduceIte]
    · cases b with
      | true => exact ih true
      | false =>
        refine List.chain'_cons'.mpr ⟨?_, ih true⟩
        intro y hy
        intro hcon
        exact collapseUS_true_head rest (by rw [hcon.2] at hy; exact hy)
    · refine List.chain'_cons'.mpr ⟨?_, ih false⟩
      intro y hy hcon
      exact ha hcon.1

theorem stripWhile_infixOf (p : Char → Bool) (l : List Char) : stripWhile p l <:+: l :=
  List.IsInfix.trans
    ( List.IsPrefix.isInfix ( List.rdropWhile_prefix p (l.dropWhile p)))
    ( List.IsSuffix.isInfix ( List.dropWhile_suffix p))

theorem head?_dropWhile_not (p : Char → Bool) :
    ∀ (l : List Char) (c : Char), (l.dropWhile p).head? = some c → p c = false := by
  intro l
  induction l with
  | nil => simp
  | cons a rest ih =>
    intro c h
    rw [List.dropWhile_cons] at h
    by_cases hp : p a
    · rw [if_pos hp] at h
      exact ih c h
    · rw [if_neg hp] at h
      simp only [List.head?_cons, Option.some.injEq] at h
      rw [← h]
      exact eq_false_of_ne_true hp

theorem stripWhile_head_not (p : Char → Bool) (l : List Char) {c : Char}
    (h : (stripWhile p l).head? = some c) : p c = false := by
  obtain ⟨t, ht⟩ := List.rdropWhile_prefix p (l.dropWhile p)
  have hd : (l.dropWhile p).head? = some c := by
    rw [← ht]
    exact Option.mem_def.mp (List.mem_head?_append_of_mem_head? (Option.mem_def.mpr h))
  exact head?_dropWhile_not p l c hd

theorem stripWhile_last_not (p : Char → Bool) (l : List Char) {c : Char}
    (h : (stripWhile p l).getLast? = some c) : p c = false := by
  have h2 : ((l.dropWhile p).reverse.dropWhile p).head? = some c := by
    have he : stripWhile p l = ((l.dropWhile p).reverse.dropWhile p).reverse := rfl
    rw [he, List.getLast?_reverse] at h
    exact h
  exact head?_dropWhile_not p _ c h2

theorem stripWhile_idem (p : Char → Bool) (l : List Char) :
    stripWhile p (stripWhile p l) = stripWhile p l := by
  have hdrop : (stripWhile p l).dropWhile p = stripWhile p l := by
    cases hs : stripWhile p l with
    | nil => simp
    | cons a s =>
      have ha : p a = false := stripWhile_head_not p l (by rw [hs]; rfl)
      rw [List.dropWhile_cons, ha]
      simp
  show ((stripWhile p l).dropWhile p).rdropWhile p = stripWhile p l
  rw [hdrop]
  apply List.rdropWhile_eq_self_iff.mpr
  intro hne
  have hsome := List.getLast?_eq_getLast _ hne
  have hfalse : p ((stripWhile p l).getLast hne) = false := stripWhile_last_not p l hsome
  simp [hfalse]

theorem head?_take_pos {n : Nat} (hn : 0 < n) (l : List Char) : (l.take n).head? = l.head? := by
  cases l with
  | nil => simp
  | cons a r =>
    cases n with
    | zero => omega
    | succ m => simp

/-- Unfolding of `sanitize_filename` into its truncation / default cases. -/
theorem sanitize_eq (S : String) :
    sanitize_filename S =
      if (sanitizeStripped S).length > 100 then String.mk ((sanitizeStripped S).take 100)
      else if sanitizeStripped S = [] then "TLDV_Meeting" else String.mk (sanitizeStripped S) := by
  simp only [sanitize_filename]
  by_cases h : (sanitizeStripped S).length > 100
  · rw [if_pos h, if_pos h]
    have hne : (sanitizeStripped S).take 100 ≠ [] := by
      intro h0
      have hlen := congrArg List.length h0
      rw [List.length_take] at hlen
      simp only [List.length_nil] at hlen
      omega
    rw [if_neg hne]
  · rw [if_neg h, if_neg h]

theorem splitOnSlash_ne_nil : ∀ l : List Char, splitOnSlash l ≠ [] := by
  intro l
  induction l with
  | nil => simp [splitOnSlash]
  | cons c rest ih =>
    simp only [splitOnSlash]
    by_cases hc : c = '/'
    · simp [hc]
    · rw [if_neg hc]
      cases h : splitOnSlash rest with
      | nil => simp
      | cons a t => simp

theorem pyStrip_idem (s : String) : pyStrip (pyStrip s) = pyStrip s := by
  show String.mk (stripWhile isPySpace (String.mk (stripWhile isPySpace s.toList)).toList) = _
  rw [show (String.mk (stripWhile isPySpace s.toList)).toList = stripWhile isPySpace s.toList from rfl]
  rw [stripWhile_idem]
  rfl

/-- A list starting with a non-space character and ending (through `l`) in a
non-space character is unchanged by `str.strip()`. -/
theorem stripWhile_prefixed_keep (a : Char) (mid l : List Char) (ha : isPySpace a = false)
    (hl : l ≠ []) (hlast : ∀ c, l.getLast? = some c → isPySpace c = false) :
    stripWhile isPySpace (a :: (mid ++ l)) = a :: (mid ++ l) := by
  have hdrop : (a :: (mid ++ l)).dropWhile isPySpace = a :: (mid ++ l) := by
    rw [List.dropWhile_cons, ha]
    simp
  show ((a :: (mid ++ l)).dropWhile isPySpace).rdropWhile isPySpace = _
  rw [hdrop]
  apply List.rdropWhile_eq_self_iff.mpr
  intro hne
  have hsome := List.getLast?_eq_getLast (a :: (mid ++ l)) hne
  have happ : (a :: (mid ++ l)).getLast? = l.getLast? := by
    rw [show a :: (mid ++ l) = (a :: mid) ++ l from rfl]
    exact List.getLast?_append_of_ne_nil (a :: mid) hl
  have : l.getLast? = some ((a :: (mid ++ l)).getLast hne) := by rw [← happ, hsome]
  have hfalse := hlast _ this
  simp [hfalse]

/-! ### Lemmas about the date embedding -/

theorem digitChar_isDigit (n : Nat) : (digitChar n).isDigit = true := by
  have hd : ∀ k, k < 10 → (Char.ofNat (48 + k)).isDigit = true := by decide
  exact hd (n % 10) (Nat.mod_lt _ (by omega))

theorem digitChar_toNat (n : Nat) : (digitChar n).toNat = 48 + n % 10 := by
  have hd : ∀ k, k < 10 → (Char.ofNat (48 + k)).toNat = 48 + k := by decide
  exact hd (n % 10) (Nat.mod_lt _ (by omega))

theorem pad2_digits (n : Nat) : ∀ c ∈ pad2 n, c.isDigit = true := by
  intro c hc
  simp only [pad2, List.mem_cons, List.not_mem_nil, or_false] at hc
  rcases hc with rfl | rfl <;> exact digitChar_isDigit _

theorem pad3_digits (n : Nat) : ∀ c ∈ pad3 n, c.isDigit = true := by
  intro c hc
  simp only [pad3, List.mem_cons, List.not_mem_nil, or_false] at hc
  rcases hc with rfl | rfl | rfl <;> exact digitChar_isDigit _

theorem pad4_digits (n : Nat) : ∀ c ∈ pad4 n, c.isDigit = true := by
  intro c hc
  simp only [pad4, List.mem_cons, List.not_mem_nil, or_false] at hc
  rcases hc with rfl | rfl | rfl | rfl <;> exact digitChar_isDigit _

theorem pad2_val (n : Nat) (h : n ≤ 99) : digitsVal (pad2 n) = n := by
  show (0 * 10 + ((digitChar (n / 10)).toNat - 48)) * 10 + ((digitChar n).toNat - 48) = n
  rw [digitChar_toNat, digitChar_toNat]
  omega

theorem pad3_val (n : Nat) (h : n ≤ 999) : digitsVal (pad3 n) = n := by
  show ((0 * 10 + ((digitChar (n / 100)).toNat - 48)) * 10 + ((digitChar (n / 10)).toNat - 48)) * 10
      + ((digitChar n).toNat - 48) = n
  rw [digitChar_toNat, digitChar_toNat, digitChar_toNat]
  omega

theorem pad4_val (n : Nat) (h : n ≤ 9999) : digitsVal (pad4 n) = n := by
  show (((0 * 10 + ((digitChar (n / 1000)).toNat - 48)) * 10 + ((digitChar (n / 100)).toNat - 48)) * 10
      + ((digitChar (n / 10)).toNat - 48)) * 10 + ((digitChar n).toNat - 48) = n
  rw [digitChar_toNat, digitChar_toNat, digitChar_toNat, digitChar_toNat]
  omega

theorem digits_append_split (ds rest : List Char) (hds : ∀ c ∈ ds, c.isDigit = true)
    (hrest : ∀ c, rest.head? = some c → c.isDigit = false) :
    (ds ++ rest).takeWhile Char.isDigit = ds ∧ (ds ++ rest).dropWhile Char.isDigit = rest := by
  induction ds with
  | nil =>
    simp only [List.nil_append]
    cases rest with
    | nil => simp
    | cons c r =>
      have hc := hrest c rfl
      constructor
      · simp [List.takeWhile_cons, hc]
      · simp [List.dropWhile_cons, hc]
  | cons a ds ih =>
    have ha : a.isDigit = true := hds a (List.mem_cons_self a ds)
    have ih2 := ih (fun c hc => hds c (List.mem_cons_of_mem a hc))
    simp only [List.cons_append, List.takeWhile_cons, List.dropWhile_cons, ha, if_true]
    exact ⟨by rw [ih2.1], ih2.2⟩

theorem head_cons_not_digit {x : Char} (hx : x.isDigit = false) (xs : List Char) :
    ∀ c, (x :: xs).head? = some c → c.isDigit = false := by
  intro c hc
  simp only [List.head?_cons, Option.some.injEq] at hc
  rw [← hc]
  exact hx

theorem parseNum4_pad4 (y : Nat) (hy : y ≤ 9999) (rest : List Char)
    (hrest : ∀ c, rest.head? = some c → c.isDigit = false) :
    parseNum4 (pad4 y ++ rest) = some (y, rest) := by
  obtain ⟨ht, hd⟩ := digits_append_split (pad4 y) rest (pad4_digits y) hrest
  simp only [parseNum4, ht, hd]
  rw [pad4_val y hy]
  rfl

theorem parseNum2_pad2 (lo hi n : Nat) (h1 : lo ≤ n) (h2 : n ≤ hi) (h99 : n ≤ 99)
    (rest : List Char) (hrest : ∀ c, rest.head? = some c → c.isDigit = false) :
    parseNum2 lo hi (pad2 n ++ rest) = some (n, rest) := by
  obtain ⟨ht, hd⟩ := digits_append_split (pad2 n) rest (pad2_digits n) hrest
  simp only [parseNum2, ht, hd]
  rw [pad2_val n h99]
  simp [h1, h2, pad2]

theorem parseFrac_pad3 (ms : Nat) (hms : ms ≤ 999) (rest : List Char)
    (hrest : ∀ c, rest.head? = some c → c.isDigit = false) :
    parseFrac (pad3 ms ++ rest) = some (ms * 1000, rest) := by
  obtain ⟨ht, hd⟩ := digits_append_split (pad3 ms) rest (pad3_digits ms) hrest
  simp only [parseFrac, ht, hd]
  rw [pad3_val ms hms]
  norm_num [pad3]

theorem parseLit_cons (a : Char) (l : List Char) : parseLit a (a :: l) = some l := by
  simp [parseLit]

theorem parseLitCI_cons (a b : Char) (l : List Char) : parseLitCI a b (a :: l) = some l := by
  simp [parseLitCI]

/-- The strptime embedding inverts the ISO `Z` printer on every valid
date-time: a printer-parser round trip. -/
theorem parseCreatedAt_isoZ (y mo d h mi sec ms : Nat) (hy1 : 1 ≤ y) (hy : y ≤ 9999)
    (hmo1 : 1 ≤ mo) (hmo : mo ≤ 12) (hd1 : 1 ≤ d) (hdm : d ≤ daysInMonth y mo)
    (hh : h ≤ 23) (hmi : mi ≤ 59) (hsec : sec ≤ 59) (hms : ms ≤ 999) :
    parseCreatedAt (isoZString y mo d h mi sec ms) = some ⟨y, mo, d, h, mi, sec, ms * 1000⟩ := by
  have e0 : (isoZString y mo d h mi sec ms).toList
      = pad4 y ++ '-' :: isoTail2 mo d h mi sec ms := rfl
  have e1 : parseNum4 (pad4 y ++ '-' :: isoTail2 mo d h mi sec ms)
      = some (y, '-' :: isoTail2 mo d h mi sec ms) :=
    parseNum4_pad4 y hy _ (head_cons_not_digit (by decide) _)
  have e2 : parseLit '-' ('-' :: isoTail2 mo d h mi sec ms)
      = some (isoTail2 mo d h mi sec ms) := parseLit_cons _ _
  have e3 : parseNum2 1 12 (isoTail2 mo d h mi sec ms)
      = some (mo, '-' :: isoTail3 d h mi sec ms) :=
    parseNum2_pad2 1 12 mo hmo1 hmo (by omega) _ (head_cons_not_digit (by decide) _)
  have e4 : parseLit '-' ('-' :: isoTail3 d h mi sec ms)
      = some (isoTail3 d h mi sec ms) := parseLit_cons _ _
  have e5 : parseNum2 1 31 (isoTail3 d h mi sec ms)
      = some (d, 'T' :: isoTail4 h mi sec ms) := by
    have hd31 : d ≤ 31 := by
      have : daysInMonth y mo ≤ 31 := by
        unfold daysInMonth
        split <;> split <;> omega
      omega
    exact parseNum2_pad2 1 31 d hd1 hd31 (by omega) _ (head_cons_not_digit (by decide) _)
  have e6 : parseLitCI 'T' 't' ('T' :: isoTail4 h mi sec ms)
      = some (isoTail4 h mi sec ms) := parseLitCI_cons _ _ _
  have e7 : parseNum2 0 23 (isoTail4 h mi sec ms)
      = some (h, ':' :: isoTail5 mi sec ms) :=
    parseNum2_pad2 0 23 h (by omega) hh (by omega) _ (head_cons_not_digit (by decide) _)
  have e8 : parseLit ':' (':' :: isoTail5 mi sec ms)
      = some (isoTail5 mi sec ms) := parseLit_cons _ _
  have e9 : parseNum2 0 59 (isoTail5 mi sec ms)
      = some (mi, ':' :: isoTail6 sec ms) :=
    parseNum2_pad2 0 59 mi (by omega) hmi (by omega) _ (head_cons_not_digit (by decide) _)
  have e10 : parseLit ':' (':' :: isoTail6 sec ms)
      = some (isoTail6 sec ms) := parseLit_cons _ _
  have e11 : parseNum2 0 61 (isoTail6 sec ms)
      = some (sec, '.' :: isoTail7 ms) :=
    parseNum2_pad2 0 61 sec (by omega) (by omega) (by omega) _ (head_cons_not_digit (by decide) _)
  have e12 : parseLit '.' ('.' :: isoTail7 ms)
      = some (isoTail7 ms) := parseLit_cons _ _
  have e13 : parseFrac (isoTail7 ms) = some (ms * 1000, ['Z']) :=
    parseFrac_pad3 ms hms _ (head_cons_not_digit (by decide) _)
  have e14 : parseLitCI 'Z' 'z' ['Z'] = some [] := parseLitCI_cons _ _ _
  simp only [parseCreatedAt, e0, e1, e2, e3, e4, e5, e6, e7, e8, e9, e10, e11, e12, e13, e14]
  rw [if_pos ⟨trivial, hy1, hdm, hsec⟩]

/-! ### Lemmas about tool selection and orchestration -/

/-- Closed-form case analysis of `check_downloader_availability`. -/
theorem check_downloader_eq (probe : String → ProbeResult) :
    check_downloader_availability probe =
      if probeOk (probe "N_m3u8DL-RE") then .ok ⟨"N_m3u8DL-RE", "N_m3u8DL-RE", true⟩
      else if probeOk (probe "ffmpeg") then .ok ⟨"ffmpeg", "ffmpeg", false⟩
      else .error "Neither N_m3u8DL-RE nor ffmpeg is available. Please install one of them." := by
  unfold check_downloader_availability downloaders
  cases hp : probeOk (probe "N_m3u8DL-RE") <;> cases hf : probeOk (probe "ffmpeg") <;>
    simp [List.filter_cons, hp, hf, List.find?]

/-- Unfolding of `prepare_auth_token`. -/
theorem prepare_auth_token_eq (token : String) :
    prepare_auth_token token =
      if strStartsWith (pyStrip token) "Bearer " || strStartsWith (pyStrip token) "bearer "
      then pyStrip token
      else "Bearer " ++ pyStrip token := rfl

/-! ### Claim theorems -/

/-- C3 (counterexample): on the 101-character input `c3BadInput`
(99 `a`s then `_b`), `sanitize_filename` returns a string that ends in an
underscore, because truncation to 100 characters happens after the
leading/trailing strip and cuts the final `b` off. This falsifies the
claim's "no trailing underscore or space" conjunct. -/
theorem sanitize_trailing_underscore_after_truncation :
    (sanitize_filename c3BadInput).toList.getLast? = some '_' ∧
    (sanitize_filename c3BadInput).length = 100 := by decide

/-- C3 (amended): for every string `S`, `sanitize_filename S` contains none of
the characters `< > : " / \ | ? *`, has no run of two or more consecutive
underscores, has no leading underscore or space, has length at most 100, and
is non-empty (the literal default `"TLDV_Meeting"` when the stripped result
is empty); moreover, whenever no truncation occurs (the stripped form has at
most 100 characters) it also has no trailing underscore or space. (The
unamended claim's unconditional "no trailing underscore or space" fails when
truncation re-exposes a stripped-interior underscore or space; it never
raises.) -/
theorem sanitize_filename_spec_amended (S : String) :
    (∀ c ∈ (sanitize_filename S).toList, c ∉ invalidFileChars) ∧
    List.Chain' noDU (sanitize_filename S).toList ∧
    (∀ c, (sanitize_filename S).toList.head? = some c → c ≠ '_' ∧ c ≠ ' ') ∧
    (sanitize_filename S).length ≤ 100 ∧
    sanitize_filename S ≠ "" ∧
    ((sanitizeStripped S).length ≤ 100 →
      ∀ c, (sanitize_filename S).toList.getLast? = some c → c ≠ '_' ∧ c ≠ ' ') := by
  have hmem1 : ∀ c ∈ sanitizeStripped S, c ∉ invalidFileChars := by
    intro c hc hinv
    have hc2 : c ∈ collapseUnderscores
        (S.toList.map fun c => if c ∈ invalidFileChars then '_' else c) :=
      List.IsInfix.subset ( stripWhile_infixOf _ _) hc
    have hc3 := mem_collapseUS false _ hc2
    obtain ⟨a, _, hfa⟩ := List.mem_map.mp hc3
    by_cases ha : a ∈ invalidFileChars
    · rw [if_pos ha] at hfa
      rw [← hfa] at hinv
      exact absurd hinv (by decide)
    · rw [if_neg ha] at hfa
      rw [← hfa] at hinv
      exact ha hinv
  have hchain : List.Chain' noDU (sanitizeStripped S) :=
    List.Chain'.infix (chain'_collapseUS false _) ( stripWhile_infixOf _ _)
  have hhead : ∀ c, (sanitizeStripped S).head? = some c → c ≠ '_' ∧ c ≠ ' ' := by
    intro c hc
    have := stripWhile_head_not _ _ hc
    simp only [Bool.or_eq_false_iff, decide_eq_false_iff_not] at this
    exact this
  have hlast : ∀ c, (sanitizeStripped S).getLast? = some c → c ≠ '_' ∧ c ≠ ' ' := by
    intro c hc
    have := stripWhile_last_not _ _ hc
    simp only [Bool.or_eq_false_iff, decide_eq_false_iff_not] at this
    exact this
  rw [sanitize_eq]
  by_cases hlen : (sanitizeStripped S).length > 100
  · rw [if_pos hlen]
    refine ⟨?_, ?_, ?_, ?_, ?_, ?_⟩
    · intro c hc
      exact hmem1 c (List.take_subset 100 _ hc)
    · exact List.Chain'.prefix hchain ( List.take_prefix 100 _)
    · intro c hc
      rw [show (String.mk ((sanitizeStripped S).take 100)).toList
            = (sanitizeStripped S).take 100 from rfl] at hc
      rw [head?_take_pos (by omega) _] at hc
      exact hhead c hc
    · show ((sanitizeStripped S).take 100).length ≤ 100
      rw [List.length_take]
      exact Nat.min_le_left _ _
    · intro h0
      have h0l : (sanitizeStripped S).take 100 = [] := congrArg String.data h0
      have hlt := congrArg List.length h0l
      rw [List.length_take] at hlt
      simp only [List.length_nil] at hlt
      omega
    · intro hle
      exact absurd hle (by omega)
  · rw [if_neg hlen]
    by_cases hnil : sanitizeStripped S = []
    · rw [if_pos hnil]
      refine ⟨by decide, by simp +decide [List.chain'_cons, noDU], ?_, by decide, by decide, ?_⟩
      · intro c hc
        simp only [show ("TLDV_Meeting" : String).toList.head? = some 'T' from rfl,
          Option.some.injEq] at hc
        subst hc
        decide
      · intro _ c hc
        simp only [show ("TLDV_Meeting" : String).toList.getLast? = some 'g' from rfl,
          Option.some.injEq] at hc
        subst hc
        decide
    · rw [if_neg hnil]
      refine ⟨hmem1, hchain, hhead,
        (by show (sanitizeStripped S).length ≤ 100; omega), ?_, fun _ => hlast⟩
      intro h0
      exact hnil (congrArg String.data h0)

/-- C3 witness: instantiation of the amended theorem at the concrete input
`"a<b>c"`, whose sanitized form is `"a_b_c"`. -/
theorem sanitize_filename_spec_amended_witness :
    ('a' ∉ invalidFileChars) ∧ ('a' ≠ '_' ∧ 'a' ≠ ' ') ∧ ('c' ≠ '_' ∧ 'c' ≠ ' ') :=
  ⟨(sanitize_filename_spec_amended "a<b>c").1 'a' (by decide),
   (sanitize_filename_spec_amended "a<b>c").2.2.1 'a' (by decide),
   (sanitize_filename_spec_amended "a<b>c").2.2.2.2.2 (by decide) 'c' (by decide)⟩

/-- C4: for every URL string, the split on `/` of the whitespace- and
trailing-slash-stripped URL always yields at least one segment; if the final
segment has length at least 10, `extract_meeting_id` returns exactly that
segment, and if it is shorter than 10 characters, `extract_meeting_id` fails
with the `ValueError` message (`InvalidMeetingId`). -/
theorem extract_meeting_id_spec (url : String) :
    splitOnSlash (rstripSlashes (stripWhile isPySpace url.toList)) ≠ [] ∧
    (10 ≤ (lastSegment url).length → extract_meeting_id url = .ok (lastSegment url)) ∧
    ((lastSegment url).length < 10 →
      extract_meeting_id url =
        .error ("Could not extract meeting ID from URL: " ++
          String.mk (rstripSlashes (stripWhile isPySpace url.toList)))) := by
  refine ⟨splitOnSlash_ne_nil _, ?_, ?_⟩
  · intro h
    simp only [extract_meeting_id]
    rw [if_neg (by unfold lastSegment at h; omega)]
    rfl
  · intro h
    simp only [extract_meeting_id]
    rw [if_pos (by unfold lastSegment at h; omega)]

/-- C4 witness: the theorem applied to a long and a short URL. -/
theorem extract_meeting_id_spec_witness :
    extract_meeting_id "https://tldv.io/app/meetings/1234567890/" = .ok "1234567890" ∧
    extract_meeting_id "https://x/short" =
      .error "Could not extract meeting ID from URL: https://x/short" := by
  constructor
  · have h := (extract_meeting_id_spec "https://tldv.io/app/meetings/1234567890/").2.1 (by decide)
    rw [h]
    rfl
  · exact (extract_meeting_id_spec "https://x/short").2.2 (by decide)

/-- C5 (counterexample): `prepare_auth_token` is not idempotent on the empty
string: one application yields `"Bearer "` and a second application yields
`"Bearer Bearer"`, because the trailing space of `"Bearer "` is stripped
before the prefix test. -/
theorem prepare_auth_token_not_idempotent_on_blank :
    prepare_auth_token (prepare_auth_token "") ≠ prepare_auth_token "" := by decide

/-- C5 (amended): `prepare_auth_token` maps `"abc"` to `"Bearer abc"` and
leaves `"Bearer abc"` and `"bearer abc"` unchanged, and it is idempotent on
every string whose whitespace-stripped form is non-empty. (The unamended
claim's idempotence on all strings fails on whitespace-only tokens, where the
first application produces `"Bearer "` whose trailing space is stripped again
by the second application.) -/
theorem prepare_auth_token_spec_amended :
    prepare_auth_token "abc" = "Bearer abc" ∧
    prepare_auth_token "Bearer abc" = "Bearer abc" ∧
    prepare_auth_token "bearer abc" = "bearer abc" ∧
    ∀ t : String, pyStrip t ≠ "" →
      prepare_auth_token (prepare_auth_token t) = prepare_auth_token t := by
  refine ⟨by decide, by decide, by decide, ?_⟩
  intro t ht
  have hne : stripWhile isPySpace t.toList ≠ [] := by
    intro h0
    apply ht
    show String.mk (stripWhile isPySpace t.toList) = ""
    rw [h0]
  by_cases hpre : (strStartsWith (pyStrip t) "Bearer "
      || strStartsWith (pyStrip t) "bearer ") = true
  · have h1 : prepare_auth_token t = pyStrip t := by
      rw [prepare_auth_token_eq, if_pos hpre]
    rw [h1, prepare_auth_token_eq, pyStrip_idem, if_pos hpre]
  · have h1 : prepare_auth_token t = "Bearer " ++ pyStrip t := by
      rw [prepare_auth_token_eq, if_neg hpre]
    have hstrip : pyStrip ("Bearer " ++ pyStrip t) = "Bearer " ++ pyStrip t := by
      show String.mk (stripWhile isPySpace ("Bearer " ++ pyStrip t).toList) = _
      rw [show ("Bearer " ++ pyStrip t).toList
            = 'B' :: (['e', 'a', 'r', 'e', 'r', ' '] ++ stripWhile isPySpace t.toList) from rfl]
      rw [stripWhile_prefixed_keep 'B' ['e', 'a', 'r', 'e', 'r', ' ']
        (stripWhile isPySpace t.toList) (by decide) hne
        (fun c hc => stripWhile_last_not isPySpace t.toList hc)]
      rfl
    have hpre2 : strStartsWith ("Bearer " ++ pyStrip t) "Bearer " = true := by
      apply List.isPrefixOf_iff_prefix.mpr
      show ("Bearer " : String).toList <+: ("Bearer " ++ pyStrip t).toList
      rw [show ("Bearer " ++ pyStrip t).toList
            = ("Bearer " : String).toList ++ (pyStrip t).toList from rfl]
      exact List.prefix_append _ _
    rw [h1, prepare_auth_token_eq, hstrip]
    rw [if_pos (show (strStartsWith ("Bearer " ++ pyStrip t) "Bearer "
      || strStartsWith ("Bearer " ++ pyStrip t) "bearer ") = true by simp [hpre2])]

/-- C5 witness: idempotence instantiated at the concrete token `"abc"`. -/
theorem prepare_auth_token_spec_amended_witness :
    prepare_auth_token (prepare_auth_token "abc") = prepare_auth_token "abc" :=
  prepare_auth_token_spec_amended.2.2.2 "abc" (by decide)

/-- C6: `parse_meeting_info` fails, with the missing-source-URL error,
whenever `video.source` is absent or empty; whenever `video.source` is
present and non-empty, it succeeds and the returned record carries that
source URL unchanged. -/
theorem parse_meeting_info_source_required (now : PyDateTime) (data : MeetingData) :
    ((data.source = none ∨ data.source = some "") →
      parse_meeting_info now data = .error "Video source URL not found in meeting data") ∧
    (∀ s : String, data.source = some s → s ≠ "" →
      (parse_meeting_info now data).toOption.map MeetingInfo.source_url = some s) := by
  constructor
  · intro hsrc
    rcases hsrc with h | h <;> simp [parse_meeting_info, h]
  · intro s hs hne
    simp [parse_meeting_info, Except.toOption, hs, hne]

/-- C6 witness: the theorem applied to a response missing `video.source`
and to a well-formed response. -/
theorem parse_meeting_info_source_required_witness :
    parse_meeting_info nowW dataNoSrc = .error "Video source URL not found in meeting data" ∧
    (parse_meeting_info nowW dataW).toOption.map MeetingInfo.source_url =
      some "https://cdn.example/video.m3u8" :=
  ⟨(parse_meeting_info_source_required nowW dataNoSrc).1 (Or.inl rfl),
   (parse_meeting_info_source_required nowW dataW).2 _ rfl (by decide)⟩

/-- C7: for every input with a non-empty `video.source`:
`"2024-03-15T10:30:00.000Z"` parses to the datetime `2024-03-15 10:30:00`
and formats to the timestamp `"2024-03-15_10-30-00"`; more generally every
valid ISO `Z` string round-trips through the strptime embedding; the
timestamp is always the strftime of the parsed `createdAt` when it parses,
and of the current time when `createdAt` is absent or unparseable — so the
`createdAt` field never makes `parse_meeting_info` fail. -/
theorem parse_meeting_info_timestamp_spec :
    parseCreatedAt "2024-03-15T10:30:00.000Z" = some ⟨2024, 3, 15, 10, 30, 0, 0⟩ ∧
    strftimeTS ⟨2024, 3, 15, 10, 30, 0, 0⟩ = "2024-03-15_10-30-00" ∧
    (∀ y mo d h mi sec ms, 1 ≤ y → y ≤ 9999 → 1 ≤ mo → mo ≤ 12 → 1 ≤ d →
      d ≤ daysInMonth y mo → h ≤ 23 → mi ≤ 59 → sec ≤ 59 → ms ≤ 999 →
      parseCreatedAt (isoZString y mo d h mi sec ms) = some ⟨y, mo, d, h, mi, sec, ms * 1000⟩) ∧
    (∀ (now : PyDateTime) (data : MeetingData) (s : String),
      data.source = some s → s ≠ "" →
      (∀ c dt, data.createdAt = some c → parseCreatedAt c = some dt →
        (parse_meeting_info now data).toOption.map MeetingInfo.timestamp =
          some (strftimeTS dt)) ∧
      (data.createdAt = none →
        (parse_meeting_info now data).toOption.map MeetingInfo.timestamp =
          some (strftimeTS now)) ∧
      (∀ c, data.createdAt = some c → parseCreatedAt c = none →
        (parse_meeting_info now data).toOption.map MeetingInfo.timestamp =
          some (strftimeTS now))) := by
  refine ⟨rfl, rfl, ?_, ?_⟩
  · intro y mo d h mi sec ms hy1 hy hmo1 hmo hd1 hdm hh hmi hsec hms
    exact parseCreatedAt_isoZ y mo d h mi sec ms hy1 hy hmo1 hmo hd1 hdm hh hmi hsec hms
  · intro now data s hs hne
    refine ⟨?_, ?_, ?_⟩
    · intro c dt hc hdt
      have hce : c ≠ "" := by
        intro h0
        rw [h0] at hdt
        rw [show parseCreatedAt "" = none from rfl] at hdt
        exact Option.noConfusion hdt
      simp [parse_meeting_info, Except.toOption, hs, hne, hc, hce, hdt]
    · intro hc
      simp [parse_meeting_info, Except.toOption, hs, hne, hc]
    · intro c hc hdt
      by_cases hce : c = ""
      · simp [parse_meeting_info, Except.toOption, hs, hne, hc, hce]
      · simp [parse_meeting_info, Except.toOption, hs, hne, hc, hce, hdt]

/-- C7 witness: the timestamp computed for the concrete response `dataW`
carrying `createdAt = "2024-03-15T10:30:00.000Z"`. -/
theorem parse_meeting_info_timestamp_spec_witness :
    (parse_meeting_info nowW dataW).toOption.map MeetingInfo.timestamp =
      some "2024-03-15_10-30-00" := by
  have h := ((parse_meeting_info_timestamp_spec.2.2.2 nowW dataW
    "https://cdn.example/video.m3u8" rfl (by decide)).1
    "2024-03-15T10:30:00.000Z" ⟨2024, 3, 15, 10, 30, 0, 0⟩ rfl
    parse_meeting_info_timestamp_spec.1)
  rw [h]
  rfl

/-- C8: a probe succeeds exactly on exit code 0 (nonzero exit,
process-not-found, timeout and other subprocess errors are unavailability);
`check_downloader_availability` returns the primary tool whenever its probe
succeeds (even if the fallback also succeeds), returns the fallback exactly
when the primary fails and the fallback succeeds, and raises the
no-downloader `RuntimeError` exactly when both fail. -/
theorem check_downloader_priority_spec (probe : String → ProbeResult) :
    (∀ r : ProbeResult, probeOk r = true ↔ r = ProbeResult.exit 0) ∧
    (probeOk (probe "N_m3u8DL-RE") = true →
      check_downloader_availability probe = .ok ⟨"N_m3u8DL-RE", "N_m3u8DL-RE", true⟩) ∧
    (probeOk (probe "N_m3u8DL-RE") = false → probeOk (probe "ffmpeg") = true →
      check_downloader_availability probe = .ok ⟨"ffmpeg", "ffmpeg", false⟩) ∧
    (check_downloader_availability probe =
        .error "Neither N_m3u8DL-RE nor ffmpeg is available. Please install one of them." ↔
      (probeOk (probe "N_m3u8DL-RE") = false ∧ probeOk (probe "ffmpeg") = false)) := by
  refine ⟨?_, ?_, ?_, ?_⟩
  · intro r
    cases r with
    | exit code => cases code <;> simp [probeOk]
    | timeoutExpired => simp [probeOk]
    | fileNotFound => simp [probeOk]
    | subprocessError => simp [probeOk]
  · intro hp
    rw [check_downloader_eq, hp]
    rfl
  · intro hp hf
    rw [check_downloader_eq, hp, hf]
    rfl
  · rw [check_downloader_eq]
    cases hp : probeOk (probe "N_m3u8DL-RE") <;> cases hf : probeOk (probe "ffmpeg") <;> simp

/-- C8 witness: the theorem applied to the three concrete probe
environments (both tools, only ffmpeg, neither). -/
theorem check_downloader_priority_spec_witness :
    check_downloader_availability probeBothOk = .ok ⟨"N_m3u8DL-RE", "N_m3u8DL-RE", true⟩ ∧
    check_downloader_availability probeOnlyFF = .ok ⟨"ffmpeg", "ffmpeg", false⟩ ∧
    check_downloader_availability probeNeither =
      .error "Neither N_m3u8DL-RE nor ffmpeg is available. Please install one of them." :=
  ⟨(check_downloader_priority_spec probeBothOk).2.1 (by decide),
   (check_downloader_priority_spec probeOnlyFF).2.2.1 (by decide) (by decide),
   (check_downloader_priority_spec probeNeither).2.2.2.mpr ⟨by decide, by decide⟩⟩

/-- C2: `run_download_command` reports success exactly on exit code 0 with
the output file present, and `download_video` returns the computed output
file path exactly when every earlier orchestration step succeeds and the
external run reports success; in every other case (any earlier error, a
timeout, a nonzero exit, an exception, or a missing file) it returns none.
The embedding is a total function: every raised error is caught inside, so
no exception reaches the caller. -/
theorem download_video_success_iff (env : DVEnv) (url auth_token : String)
    (output_dir : Option String) :
    (∀ (r : RunResult) (fe : Bool),
      run_download_command r fe = true ↔ (r = RunResult.exit 0 ∧ fe = true)) ∧
    (download_video env url auth_token output_dir).1 =
      (if dvReachesRun env url auth_token output_dir
          && run_download_command env.run env.fileExists then
        dvOutputFile env url auth_token output_dir
      else none) := by
  constructor
  · intro r fe
    cases r with
    | exit code => cases code <;> cases fe <;> simp [run_download_command]
    | timeoutExpired => simp [run_download_command]
    | raised m => simp [run_download_command]
  · by_cases hmk : (output_dir.isSome && !env.mkdirOk) = true
    · simp [download_video, dvReachesRun, hmk]
    · simp only [download_video, dvReachesRun, dvOutputFile,
        Bool.not_eq_true] at hmk ⊢
      cases hx : extract_meeting_id url with
      | error e => simp [hmk, hx]
      | ok mid =>
        cases hf : env.fetch mid (prepare_auth_token auth_token) with
        | error e => simp [hmk, hx, hf]
        | ok data =>
          cases hp : parse_meeting_info env.now data with
          | error e => simp [hmk, hx, hf, hp]
          | ok info =>
            cases hc : check_downloader_availability env.probe with
            | error e => simp [hmk, hx, hf, hp, hc]
            | ok dl =>
              cases hr : run_download_command env.run env.fileExists <;>
                simp [hmk, hx, hf, hp, hc, hr]

/-- C9: when both external downloader probes fail, `download_video` returns
none and performs neither the `.json` metadata write nor the tool invocation
that would produce the `.mp4`: tool selection (step 6) raises before the
metadata write (step 7) is reached. -/
theorem download_video_no_writes_when_no_downloader (env : DVEnv) (url auth_token : String)
    (output_dir : Option String) (hp : probeOk (env.probe "N_m3u8DL-RE") = false)
    (hf : probeOk (env.probe "ffmpeg") = false) :
    (download_video env url auth_token output_dir).1 = none ∧
    ∀ e ∈ (download_video env url auth_token output_dir).2,
      (∀ p, e ≠ Effect.writeJson p) ∧ (∀ t o, e ≠ Effect.invokeTool t o) := by
  have hc : check_downloader_availability env.probe =
      .error "Neither N_m3u8DL-RE nor ffmpeg is available. Please install one of them." := by
    rw [check_downloader_eq, hp, hf]
    rfl
  have heff : ∀ e ∈ (match output_dir with
      | some d => [Effect.mkdirO d] | none => ([] : List Effect)),
      (∀ p, e ≠ Effect.writeJson p) ∧ (∀ t o, e ≠ Effect.invokeTool t o) := by
    cases output_dir with
    | none => intro e he; simp at he
    | some d =>
      intro e he
      simp only [List.mem_singleton] at he
      subst he
      exact ⟨fun p => Effect.noConfusion, fun t o => Effect.noConfusion⟩
  by_cases hmk : (output_dir.isSome && !env.mkdirOk) = true
  · constructor
    · simp [download_video, hmk]
    · intro e he
      simp [download_video, hmk] at he
  · simp only [download_video, Bool.not_eq_true] at hmk ⊢
    cases hx : extract_meeting_id url with
    | error e => exact ⟨by simp [hmk, hx], by simpa [hmk, hx] using heff⟩
    | ok mid =>
      cases hfch : env.fetch mid (prepare_auth_token auth_token) with
      | error e => exact ⟨by simp [hmk, hx, hfch], by simpa [hmk, hx, hfch] using heff⟩
      | ok data =>
        cases hpar : parse_meeting_info env.now data with
        | error e =>
          exact ⟨by simp [hmk, hx, hfch, hpar], by simpa [hmk, hx, hfch, hpar] using heff⟩
        | ok info =>
          exact ⟨by simp [hmk, hx, hfch, hpar, hc], by simpa [hmk, hx, hfch, hpar, hc] using heff⟩

/-- C9 witness: a concrete call with both tools absent. -/
theorem download_video_no_writes_when_no_downloader_witness :
    (download_video envNoTools "https://tldv.io/meetings/1234567890" "tok" (some "out")).1
      = none ∧
    ∀ e ∈ (download_video envNoTools "https://tldv.io/meetings/1234567890" "tok"
        (some "out")).2,
      (∀ p, e ≠ Effect.writeJson p) ∧ (∀ t o, e ≠ Effect.invokeTool t o) :=
  download_video_no_writes_when_no_downloader envNoTools
    "https://tldv.io/meetings/1234567890" "tok" (some "out") (by decide) (by decide)

/-- C1 (code_bug evidence): `download_multiple_videos` collects exactly one
outcome per input item — carrying the url, the success flag, and the file
path on success or the error string on failure — but its Python return value
for every non-empty batch is `None` (the function body never returns the
collected lists), so the claimed outcome list is not returned, and `main()`'s
`if results:` check reports batch failure even when every item succeeded.
Shown on a successful 1-item batch and on the spec's 5-item batch where item
3 raises. -/
theorem download_multiple_returns_none_despite_outcomes :
    (download_multiple_videos dvAllOk [("u1", "tok")] (some "out") 3).retval = none ∧
    (download_multiple_videos dvAllOk [("u1", "tok")] (some "out") 3).outcomes =
      [⟨true, "u1", some "u1.mp4", none⟩] ∧
    (download_multiple_videos dvMixed
        [("u1", "t"), ("u2", "t"), ("u3", "t"), ("u4", "t"), ("u5", "t")] none 2).retval
      = none ∧
    (download_multiple_videos dvMixed
        [("u1", "t"), ("u2", "t"), ("u3", "t"), ("u4", "t"), ("u5", "t")] none 2).outcomes =
      [⟨true, "u1", some "u1.mp4", none⟩, ⟨true, "u2", some "u2.mp4", none⟩,
       ⟨false, "u3", none, some "boom"⟩, ⟨true, "u4", some "u4.mp4", none⟩,
       ⟨true, "u5", some "u5.mp4", none⟩] :=
  ⟨rfl, rfl, rfl, rfl⟩

/-- C10: the empty batch returns the empty list immediately — no directory
resolution or creation, no worker pool, no outcomes — while every non-empty
batch resolves the directory, starts the pool (and returns `None`). -/
theorem download_multiple_empty_spec :
    (∀ (dv : String × String → DVResult) (od : Option String) (mw : Nat),
      download_multiple_videos dv [] od mw =
        ⟨some [], [], false, false⟩) ∧
    (∀ (dv : String × String → DVResult) (items : List (String × String))
        (od : Option String) (mw : Nat), items ≠ [] →
      (download_multiple_videos dv items od mw).retval = none ∧
      (download_multiple_videos dv items od mw).dirSetup = true ∧
      (download_multiple_videos dv items od mw).poolStarted = true) := by
  constructor
  · intro dv od mw
    rfl
  · intro dv items od mw h
    have hne : items.isEmpty = false := by
      cases items with
      | nil => exact absurd rfl h
      | cons a l => rfl
    simp [download_multiple_videos, hne]

/-- C10 witness: the empty batch and a 1-item batch. -/
theorem download_multiple_empty_spec_witness :
    (download_multiple_videos dvAllOk [] none 3).retval = some [] ∧
    (download_multiple_videos dvAllOk [("u9", "t")] none 3).dirSetup = true :=
  ⟨by rw [download_multiple_empty_spec.1 dvAllOk none 3],
   (download_multiple_empty_spec.2 dvAllOk [("u9", "t")] none 3 (by decide)).2.1⟩

end TLDV
